import Mathlib

/-!
Verification of the StoryReel scene compositor and export/playback
synchronization engine.

This file is a shallow embedding of the compositor core:
the `VideoPlayer` preview state machine (scene clock, scene-complete
transition, skip navigation, background-music handling), and the
`generateVideo` export pipeline of `utils/videoGenerator`
(cover-fit composition `drawCover`, subtitle word-wrap in
`drawSubtitles`, per-scene visible-duration computation, and the
sequential narration-audio start/render/stop trace).

JavaScript floating-point numbers are modelled as rationals (ℚ);
`ctx.measureText` is modelled as an additive per-character width.
-/

namespace StoryReel

/-! ## Data model (types.ts) -/

/-- A scene as the preview/export callers see it: narration text plus
optional image, video and audio handles (`GeneratedScene` of types.ts,
restricted to the fields the compositor reads). -/
structure GeneratedScene where
  narration : String
  imageUrl : Option String
  videoUrl : Option String
  audioUrl : Option String
  deriving DecidableEq, Repr

/-! ## Frame compositor: cover-fit (videoGenerator `drawCover`) -/

/-- The rectangle `drawCover` paints: destination offset and size for
`ctx.drawImage(img, offX, offY, newW, newH)` given source dimensions
`imgW × imgH` and target dimensions `width × height`. -/
structure CoverRect where
  offX : ℚ
  offY : ℚ
  newW : ℚ
  newH : ℚ
  deriving DecidableEq, Repr

/-- Function `drawCover` of videoGenerator: `ratio = max(width/imgW, height/imgH)`,
scale the source by `ratio` and center it over the target. -/
def drawCover (imgW imgH width height : ℚ) : CoverRect :=
  let ratio := max (width / imgW) (height / imgH)
  let newW := imgW * ratio
  let newH := imgH * ratio
  { offX := (width - newW) / 2
    offY := (height - newH) / 2
    newW := newW
    newH := newH }

/-! ## Scene clock (VideoPlayer fallback and audio modes) -/

/-- Constant `FALLBACK_DURATION` of VideoPlayer: nominal scene length in
milliseconds for scenes without narration audio. -/
def FALLBACK_DURATION : ℚ := 5000

/-- The anchor timestamp computed by `animate` when
`fallbackStartTimeRef.current` is null:
`Date.now() - (progress / 100 * FALLBACK_DURATION)`. -/
def fallbackAnchor (now progress : ℚ) : ℚ :=
  now - progress / 100 * FALLBACK_DURATION

/-- The progress value `animate` computes each frame from the anchor:
`min((elapsed / FALLBACK_DURATION) * 100, 100)`. -/
def fallbackProgress (anchor now : ℚ) : ℚ :=
  min ((now - anchor) / FALLBACK_DURATION * 100) 100

/-- The progress value the audio-driven clock reports on `timeupdate`:
`(audio.currentTime / audio.duration) * 100`. -/
def audioProgress (currentTime duration : ℚ) : ℚ :=
  currentTime / duration * 100

/-! ## Preview player state (VideoPlayer) -/

/-- Observable state of the background-music element: whether it is
paused and its playback position in seconds. -/
structure BgAudio where
  paused : Bool
  currentTime : ℚ
  deriving DecidableEq, Repr

/-- The VideoPlayer state touched by `handleSceneEnd` and `skip`:
current scene index, master playing flag, per-scene progress,
the fallback-clock anchor, and the background-music element
(if a music selection exists). -/
structure PlayerState where
  currentSceneIndex : ℕ
  isPlaying : Bool
  progress : ℚ
  fallbackStartTime : Option ℚ
  bgAudio : Option BgAudio
  deriving DecidableEq, Repr

/-- Function `handleSceneEnd` of VideoPlayer: advance to the next scene, or on
the last scene stop playback, rewind to scene 0 and pause/rewind the
background music. -/
def handleSceneEnd (numScenes : ℕ) (s : PlayerState) : PlayerState :=
  if s.currentSceneIndex < numScenes - 1 then
    { s with
      currentSceneIndex := s.currentSceneIndex + 1
      progress := 0
      fallbackStartTime := none }
  else
    { s with
      isPlaying := false
      currentSceneIndex := 0
      progress := 0
      fallbackStartTime := none
      bgAudio := s.bgAudio.map (fun b => { b with paused := true, currentTime := 0 }) }

/-- Function `skip` of VideoPlayer: move one scene forward (`next := true`) or
back, clamped to `[0, numScenes - 1]`, pausing playback and resetting
progress and the fallback anchor. -/
def skip (numScenes : ℕ) (next : Bool) (s : PlayerState) : PlayerState :=
  let rawIndex : ℤ :=
    if next then (s.currentSceneIndex : ℤ) + 1 else (s.currentSceneIndex : ℤ) - 1
  let clampedLow : ℤ := if rawIndex < 0 then 0 else rawIndex
  let newIndex : ℤ :=
    if (numScenes : ℤ) ≤ clampedLow then (numScenes : ℤ) - 1 else clampedLow
  { s with
    isPlaying := false
    currentSceneIndex := newIndex.toNat
    progress := 0
    fallbackStartTime := none }

/-! ## Subtitle word-wrap (videoGenerator `drawSubtitles`) -/

/-- A wrapped line as `drawSubtitles` builds it: the accumulated string
`w0 ++ " " ++ w1 ++ " " ++ ...` (each word is followed by one space,
exactly as `line + words[n] + ' '` concatenates in the source). -/
def renderLine (ws : List String) : String :=
  ws.foldl (fun acc w => acc ++ w ++ " ") ""

/-- Model of `ctx.measureText(s).width`: the sum of per-character glyph
widths `cw` over the string. -/
def measureW (cw : Char → ℚ) (s : String) : ℚ :=
  (s.data.map cw).sum

/-- The greedy word-wrap loop of `drawSubtitles`, operating on the list
of remaining words. `line` is the accumulated current line, `n` the
index of the next word (the source tests `testWidth > maxWidth && n > 0`);
on overflow the current line is flushed and the word starts a new line,
and the final line is always flushed. -/
def wrapAux (cw : Char → ℚ) (maxW : ℚ) : List String → ℕ → List String → List (List String)
  | line, _, [] => [line]
  | line, n, w :: rest =>
    if maxW < measureW cw (renderLine (line ++ [w])) ∧ 0 < n then
      line :: wrapAux cw maxW [w] (n + 1) rest
    else
      wrapAux cw maxW (line ++ [w]) (n + 1) rest

/-- The split `text.split(' ')` performed by `drawSubtitles`. -/
def splitWords (text : String) : List String :=
  text.split (fun c => c = ' ')

/-- The word-wrap of `drawSubtitles` with its maximum line width
`maxWidth = width * 0.9`. -/
def wordWrap (cw : Char → ℚ) (width : ℚ) (ws : List String) : List (List String) :=
  wrapAux cw (width * (9 / 10)) [] 0 ws

/-- The list of lines `drawSubtitles` draws for a subtitle `text` on a
target of the given width. -/
def drawSubtitlesLines (cw : Char → ℚ) (width : ℚ) (text : String) : List (List String) :=
  wordWrap cw width (splitWords text)

/-! ## Export pipeline (videoGenerator `generateVideo`) -/

/-- A scene as `generateVideo` consumes it, after asset resolution:
whether a video or image handle is present, the decoded narration
buffer duration in seconds (when `audioUrl` is present and decodes),
and whether loading any of the scene assets throws. -/
structure ExpScene where
  narration : String
  hasVideo : Bool
  hasImage : Bool
  audioDuration : Option ℚ
  loadFails : Bool
  deriving DecidableEq, Repr

/-- A scene has a renderable visual when either handle is present
(`scene.videoUrl || scene.imageUrl` in the source). -/
def ExpScene.hasVisual (s : ExpScene) : Bool :=
  s.hasVideo || s.hasImage

/-- JavaScript `audioBuffer?.duration || 5`: the decoded duration when
present and nonzero (`0` is falsy in JavaScript), else `5`. -/
def jsOrFive (d : Option ℚ) : ℚ :=
  match d with
  | some t => if t = 0 then 5 else t
  | none => 5

/-- The visible duration `generateVideo` computes for a scene:
`(audioBuffer?.duration || 5) + 0.5` seconds. -/
def sceneDuration (s : ExpScene) : ℚ :=
  jsOrFive s.audioDuration + 1 / 2

theorem jsOrFive_some (t : ℚ) : jsOrFive (some t) = if t = 0 then 5 else t := rfl

theorem jsOrFive_none : jsOrFive none = 5 := rfl

/-- Observable events of the export loop: starting a scene's narration
buffer source, the per-frame render loop completing after the scene's
visible duration, and explicitly stopping the source. -/
inductive ExportEv where
  | startSource (i : ℕ)
  | renderScene (i : ℕ) (duration : ℚ)
  | stopSource (i : ℕ)
  deriving DecidableEq, Repr

/-- The events one iteration of the `generateVideo` playback loop emits
for scene `i`: nothing when asset loading throws (`continue` in the
catch) or no visual resolved (`if (!visual) continue`); otherwise the
render loop runs for the scene's visible duration, bracketed by
start/stop of the narration source when an audio buffer exists. -/
def sceneEvents (i : ℕ) (s : ExpScene) : List ExportEv :=
  if s.loadFails then []
  else if s.hasVisual then
    if s.audioDuration.isSome then
      [ExportEv.startSource i, ExportEv.renderScene i (sceneDuration s), ExportEv.stopSource i]
    else
      [ExportEv.renderScene i (sceneDuration s)]
  else []

/-- The event trace of the sequential `for` loop of `generateVideo`,
numbering scenes from `n`. -/
def exportTraceAux (n : ℕ) : List ExpScene → List ExportEv
  | [] => []
  | s :: rest => sceneEvents n s ++ exportTraceAux (n + 1) rest

/-- The full event trace of `generateVideo` over the supplied scenes. -/
def exportTrace (scenes : List ExpScene) : List ExportEv :=
  exportTraceAux 0 scenes

/-- The durations of the completed per-scene render loops in a trace. -/
def renderDurations (t : List ExportEv) : List ℚ :=
  t.filterMap (fun e =>
    match e with
    | ExportEv.renderScene _ d => some d
    | _ => none)

/-- Total captured duration of an export: the render loop of each
rendered scene runs at wall-clock speed for its visible duration, so
the capture lasts for the sum of the rendered durations. -/
def totalCaptureDuration (scenes : List ExpScene) : ℚ :=
  (renderDurations (exportTrace scenes)).sum

/-- Scene index mentioned by an export event. -/
def evIndex : ExportEv → ℕ
  | ExportEv.startSource i => i
  | ExportEv.renderScene i _ => i
  | ExportEv.stopSource i => i

/-- Position of an event within its scene block: start, render, stop. -/
def evPhase : ExportEv → ℕ
  | ExportEv.startSource _ => 0
  | ExportEv.renderScene _ _ => 1
  | ExportEv.stopSource _ => 2

/-- Strict temporal order of export events: earlier scene, or same
scene and earlier phase (start before render before stop). -/
def evLt (a b : ExportEv) : Prop :=
  evIndex a < evIndex b ∨ (evIndex a = evIndex b ∧ evPhase a < evPhase b)

/-- Scene `i`'s narration source is active after the first `k` trace
events: it has been started but not yet stopped. -/
def activeSource (scenes : List ExpScene) (k i : ℕ) : Prop :=
  ExportEv.startSource i ∈ (exportTrace scenes).take k ∧
    ExportEv.stopSource i ∉ (exportTrace scenes).take k

instance (scenes : List ExpScene) (k i : ℕ) : Decidable (activeSource scenes k i) := by
  unfold activeSource
  infer_instance

/-! ## Export entry point (App.tsx `handleExportFullMovie`) -/

/-- The readiness filter of `handleExportFullMovie`:
`(s.imageUrl || s.videoUrl) && s.audioUrl`. -/
def isReadyScene (s : GeneratedScene) : Bool :=
  (s.imageUrl.isSome || s.videoUrl.isSome) && s.audioUrl.isSome

/-- The filter `scenes.filter(s => (s.imageUrl || s.videoUrl) && s.audioUrl)`. -/
def readyScenes (scenes : List GeneratedScene) : List GeneratedScene :=
  scenes.filter isReadyScene

/-- Outcome of a full-movie export call. -/
inductive ExportResult where
  | earlyReturn
  | failed (msg : String)
  | exported
  deriving DecidableEq, Repr

/-- Observable effects of one `handleExportFullMovie` call: its outcome
and whether the export session's `MediaRecorder` and off-document
`AudioContext` graph were ever constructed. -/
structure ExportRun where
  result : ExportResult
  recorderCreated : Bool
  audioGraphCreated : Bool
  deriving DecidableEq, Repr

/-- Function `handleExportFullMovie` of App.tsx: returns immediately when there
are no scenes at all; throws `"No completed scenes to export"` when the
readiness filter leaves nothing, before `generateVideo` (which is what
constructs the recorder and the audio graph) is ever invoked; otherwise
runs `generateVideo` on the ready scenes, which creates the audio graph
and recorder and resolves with the encoded blob. -/
def handleExportFullMovie (scenes : List GeneratedScene) : ExportRun :=
  if scenes.length = 0 then
    { result := ExportResult.earlyReturn, recorderCreated := false, audioGraphCreated := false }
  else if (readyScenes scenes).length = 0 then
    { result := ExportResult.failed ("No completed scenes to export")
      recorderCreated := false
      audioGraphCreated := false }
  else
    { result := ExportResult.exported, recorderCreated := true, audioGraphCreated := true }

/-! ## Concrete scenes used by scenario claims -/

/-- A ready scene whose narration decodes to a 3.0 s buffer. -/
def audio3Scene : ExpScene :=
  { narration := ("one"), hasVideo := false, hasImage := true
    audioDuration := some 3, loadFails := false }

/-- A scene with a visual but no narration audio. -/
def noAudioScene : ExpScene :=
  { narration := ("two"), hasVideo := false, hasImage := true
    audioDuration := none, loadFails := false }

/-- A ready scene whose narration decodes to a 2.0 s buffer. -/
def audio2Scene : ExpScene :=
  { narration := ("three"), hasVideo := false, hasImage := true
    audioDuration := some 2, loadFails := false }

/-- The spec's three-scene scenario: audio 3.0 s, no audio, audio 2.0 s. -/
def demoScenes : List ExpScene := [audio3Scene, noAudioScene, audio2Scene]

/-- A scene with a decodable audio handle but no visual handle at all. -/
def audioOnlyScene : ExpScene :=
  { narration := ("solo"), hasVideo := false, hasImage := false
    audioDuration := some 2, loadFails := false }

/-! ## C4: cover-fit composition -/

/-- C4: for all positive source dimensions and positive target
dimensions, `drawCover` draws a rectangle at least as large as the
target in both axes, centered with equal overflow on opposite sides,
fully covering every target pixel, and with the drawn aspect ratio
equal to the source aspect ratio. -/
theorem drawCover_cover_fit (imgW imgH width height : ℚ)
    (hiw : 0 < imgW) (hih : 0 < imgH) (hw : 0 < width) (hh : 0 < height) :
    width ≤ (drawCover imgW imgH width height).newW ∧
    height ≤ (drawCover imgW imgH width height).newH ∧
    (drawCover imgW imgH width height).offX ≤ 0 ∧
    (drawCover imgW imgH width height).offY ≤ 0 ∧
    width ≤ (drawCover imgW imgH width height).offX + (drawCover imgW imgH width height).newW ∧
    height ≤ (drawCover imgW imgH width height).offY + (drawCover imgW imgH width height).newH ∧
    -(drawCover imgW imgH width height).offX =
      (drawCover imgW imgH width height).offX + (drawCover imgW imgH width height).newW - width ∧
    -(drawCover imgW imgH width height).offY =
      (drawCover imgW imgH width height).offY + (drawCover imgW imgH width height).newH - height ∧
    (drawCover imgW imgH width height).newW * imgH =
      (drawCover imgW imgH width height).newH * imgW := by
  simp only [drawCover]
  have hrw : width / imgW ≤ max (width / imgW) (height / imgH) := le_max_left _ _
  have hrh : height / imgH ≤ max (width / imgW) (height / imgH) := le_max_right _ _
  have hW : width ≤ imgW * max (width / imgW) (height / imgH) := by
    have h1 := mul_le_mul_of_nonneg_left hrw (le_of_lt hiw)
    have h2 : imgW * (width / imgW) = width := by field_simp
    linarith
  have hH : height ≤ imgH * max (width / imgW) (height / imgH) := by
    have h1 := mul_le_mul_of_nonneg_left hrh (le_of_lt hih)
    have h2 : imgH * (height / imgH) = height := by field_simp
    linarith
  refine ⟨hW, hH, by linarith, by linarith, by linarith, by linarith, by ring, by ring, by ring⟩

/-- Witness for C4 at source 4×3 and target 16×9. -/
theorem drawCover_cover_fit_witness :
    ((0:ℚ) < 4 ∧ (0:ℚ) < 3 ∧ (0:ℚ) < 16 ∧ (0:ℚ) < 9) ∧
    ((16:ℚ) ≤ (drawCover 4 3 16 9).newW ∧
     (9:ℚ) ≤ (drawCover 4 3 16 9).newH ∧
     (drawCover 4 3 16 9).offX ≤ 0 ∧
     (drawCover 4 3 16 9).offY ≤ 0 ∧
     (16:ℚ) ≤ (drawCover 4 3 16 9).offX + (drawCover 4 3 16 9).newW ∧
     (9:ℚ) ≤ (drawCover 4 3 16 9).offY + (drawCover 4 3 16 9).newH ∧
     -(drawCover 4 3 16 9).offX =
       (drawCover 4 3 16 9).offX + (drawCover 4 3 16 9).newW - 16 ∧
     -(drawCover 4 3 16 9).offY =
       (drawCover 4 3 16 9).offY + (drawCover 4 3 16 9).newH - 9 ∧
     (drawCover 4 3 16 9).newW * 3 = (drawCover 4 3 16 9).newH * 4) :=
  ⟨⟨by decide, by decide, by decide, by decide⟩,
   drawCover_cover_fit 4 3 16 9 (by decide) (by decide) (by decide) (by decide)⟩

/-! ## C7: scene-complete transition -/

/-- C7: when the active scene completes, `handleSceneEnd` advances the
index by exactly 1 and resets progress to 0 if the index is not the
last; on the last index it clears the playing flag, resets the index to
0, resets progress to 0, and pauses and rewinds the background music. -/
theorem handleSceneEnd_transition (numScenes : ℕ) (s : PlayerState) :
    (s.currentSceneIndex + 1 < numScenes →
      (handleSceneEnd numScenes s).currentSceneIndex = s.currentSceneIndex + 1 ∧
      (handleSceneEnd numScenes s).progress = 0) ∧
    (s.currentSceneIndex + 1 = numScenes →
      (handleSceneEnd numScenes s).isPlaying = false ∧
      (handleSceneEnd numScenes s).currentSceneIndex = 0 ∧
      (handleSceneEnd numScenes s).progress = 0 ∧
      ∀ b, s.bgAudio = some b →
        (handleSceneEnd numScenes s).bgAudio = some { paused := true, currentTime := 0 }) := by
  constructor
  · intro h
    unfold handleSceneEnd
    rw [if_pos (by omega)]
    exact ⟨rfl, rfl⟩
  · intro h
    unfold handleSceneEnd
    rw [if_neg (by omega)]
    refine ⟨rfl, rfl, rfl, ?_⟩
    intro b hb
    simp [hb]

/-- Witness for C7 on a two-of-three scene advance. -/
theorem handleSceneEnd_transition_witness :
    (PlayerState.mk 0 true 0 none none).currentSceneIndex + 1 < 3 ∧
    ((handleSceneEnd 3 (PlayerState.mk 0 true 0 none none)).currentSceneIndex =
        (PlayerState.mk 0 true 0 none none).currentSceneIndex + 1 ∧
      (handleSceneEnd 3 (PlayerState.mk 0 true 0 none none)).progress = 0) :=
  ⟨by decide, (handleSceneEnd_transition 3 (PlayerState.mk 0 true 0 none none)).1 (by decide)⟩

/-! ## C10: scene advance leaves background music untouched -/

/-- C10: completing a scene whose index is not the last leaves the
background-music player entirely untouched — `handleSceneEnd` neither
pauses it nor changes its position in the advance branch. -/
theorem handleSceneEnd_advance_keeps_bgMusic (numScenes : ℕ) (s : PlayerState)
    (h : s.currentSceneIndex + 1 < numScenes) :
    (handleSceneEnd numScenes s).bgAudio = s.bgAudio := by
  unfold handleSceneEnd
  rw [if_pos (by omega)]

/-- Witness for C10 with a playing background-music element. -/
theorem handleSceneEnd_advance_keeps_bgMusic_witness :
    (PlayerState.mk 0 true 0 none (some (BgAudio.mk false 7))).currentSceneIndex + 1 < 3 ∧
    (handleSceneEnd 3 (PlayerState.mk 0 true 0 none (some (BgAudio.mk false 7)))).bgAudio =
      (PlayerState.mk 0 true 0 none (some (BgAudio.mk false 7))).bgAudio :=
  ⟨by decide,
   handleSceneEnd_advance_keeps_bgMusic 3 (PlayerState.mk 0 true 0 none (some (BgAudio.mk false 7)))
     (by decide)⟩

/-! ## C8: fallback pause/resume preserves progress -/

/-- C8: resuming fallback playback at progress `P ∈ [0,100)` recomputes
the anchor as `now - (P/100 · 5000 ms)`; the progress recomputed at the
resume instant equals `P` exactly, and the progress after any later
frame differs from `P` by at most the elapsed time's worth of progress
(no discontinuity beyond one frame interval). -/
theorem fallback_resume_preserves_progress (P t0 t1 : ℚ)
    (hP0 : 0 ≤ P) (hP1 : P < 100) (ht : t0 ≤ t1) :
    fallbackProgress (fallbackAnchor t0 P) t0 = P ∧
    0 ≤ fallbackProgress (fallbackAnchor t0 P) t1 - P ∧
    fallbackProgress (fallbackAnchor t0 P) t1 - P ≤ (t1 - t0) / FALLBACK_DURATION * 100 := by
  unfold fallbackProgress fallbackAnchor FALLBACK_DURATION
  have key : ∀ t : ℚ, (t - (t0 - P / 100 * 5000)) / 5000 * 100 = P + (t - t0) / 5000 * 100 := by
    intro t; ring
  have hd : 0 ≤ (t1 - t0) / 5000 * 100 := by
    apply mul_nonneg (div_nonneg (by linarith) (by norm_num)) (by norm_num)
  refine ⟨?_, ?_, ?_⟩
  · rw [key t0]
    have h0 : P + (t0 - t0) / 5000 * 100 = P := by ring
    rw [h0]
    exact min_eq_left (le_of_lt hP1)
  · rw [key t1]
    have h1 : P ≤ min (P + (t1 - t0) / 5000 * 100) 100 := le_min (by linarith) (le_of_lt hP1)
    linarith
  · rw [key t1]
    have h2 : min (P + (t1 - t0) / 5000 * 100) 100 ≤ P + (t1 - t0) / 5000 * 100 :=
      min_le_left _ _
    linarith

/-- Witness for C8: resume at progress 50 at t=1000 ms, first frame at
t=1016 ms. -/
theorem fallback_resume_preserves_progress_witness :
    ((0:ℚ) ≤ 50 ∧ (50:ℚ) < 100 ∧ (1000:ℚ) ≤ 1016) ∧
    (fallbackProgress (fallbackAnchor 1000 50) 1000 = 50 ∧
     0 ≤ fallbackProgress (fallbackAnchor 1000 50) 1016 - 50 ∧
     fallbackProgress (fallbackAnchor 1000 50) 1016 - 50 ≤
       ((1016:ℚ) - 1000) / FALLBACK_DURATION * 100) :=
  ⟨⟨by decide, by decide, by decide⟩,
   fallback_resume_preserves_progress 50 1000 1016 (by decide) (by decide) (by decide)⟩

/-! ## C9: progress stays in [0,100]; reset to 0 on index change -/

/-- C9: both scene clocks report progress in `[0,100]` — the fallback
clock clamps at 100 and never goes below 0 once the anchor is in the
past, the audio clock reports `currentTime/duration · 100` which stays
in range for a valid element clock — and progress is reset to exactly 0
on every index change: scene completion and end-of-sequence reset
(`handleSceneEnd`) and skip navigation (`skip`). -/
theorem sceneClock_progress_invariant (anchor now currentTime duration : ℚ)
    (numScenes : ℕ) (next : Bool) (s : PlayerState)
    (hanchor : anchor ≤ now) (hct : 0 ≤ currentTime) (hcd : currentTime ≤ duration)
    (hdur : 0 < duration) :
    (0 ≤ fallbackProgress anchor now ∧ fallbackProgress anchor now ≤ 100) ∧
    (0 ≤ audioProgress currentTime duration ∧ audioProgress currentTime duration ≤ 100) ∧
    (handleSceneEnd numScenes s).progress = 0 ∧
    (skip numScenes next s).progress = 0 := by
  refine ⟨⟨?_, ?_⟩, ⟨?_, ?_⟩, ?_, ?_⟩
  · unfold fallbackProgress FALLBACK_DURATION
    apply le_min
    · apply mul_nonneg (div_nonneg (by linarith) (by norm_num)) (by norm_num)
    · norm_num
  · unfold fallbackProgress
    exact min_le_right _ _
  · unfold audioProgress
    apply mul_nonneg (div_nonneg hct (le_of_lt hdur)) (by norm_num)
  · unfold audioProgress
    have h1 : currentTime / duration ≤ 1 := (div_le_one hdur).mpr hcd
    have h2 : currentTime / duration * 100 ≤ 1 * 100 :=
      mul_le_mul_of_nonneg_right h1 (by norm_num)
    linarith
  · unfold handleSceneEnd
    split
    · rfl
    · rfl
  · rfl

/-- Witness for C9 with an anchor 16 ms in the past and an audio clock
at 1 s of a 2 s narration. -/
theorem sceneClock_progress_invariant_witness :
    ((1000:ℚ) ≤ 1016 ∧ (0:ℚ) ≤ 1 ∧ (1:ℚ) ≤ 2 ∧ (0:ℚ) < 2) ∧
    ((0 ≤ fallbackProgress 1000 1016 ∧ fallbackProgress 1000 1016 ≤ 100) ∧
     (0 ≤ audioProgress 1 2 ∧ audioProgress 1 2 ≤ 100) ∧
     (handleSceneEnd 3 (PlayerState.mk 1 true 55 none none)).progress = 0 ∧
     (skip 3 true (PlayerState.mk 1 true 55 none none)).progress = 0) :=
  ⟨⟨by decide, by decide, by decide, by decide⟩,
   sceneClock_progress_invariant 1000 1016 1 2 3 true (PlayerState.mk 1 true 55 none none)
     (by decide) (by decide) (by decide) (by decide)⟩

/-! ## C2: empty ready-scene list rejected before any recorder exists -/

/-- C2: when export is attempted and the ready-scene filter leaves an
empty list, `handleExportFullMovie` rejects with the
"No completed scenes to export" error before `generateVideo` — and so
before any recorder or audio graph — is created, and no blob is
returned. -/
theorem export_empty_ready_rejected (scenes : List GeneratedScene)
    (hne : scenes ≠ []) (hready : readyScenes scenes = []) :
    (handleExportFullMovie scenes).result = ExportResult.failed ("No completed scenes to export") ∧
    (handleExportFullMovie scenes).recorderCreated = false ∧
    (handleExportFullMovie scenes).audioGraphCreated = false ∧
    (handleExportFullMovie scenes).result ≠ ExportResult.exported := by
  unfold handleExportFullMovie
  rw [if_neg (by simp [hne]), if_pos (by rw [hready]; rfl)]
  exact ⟨rfl, rfl, rfl, by simp⟩

/-- Witness for C2: one scene with no assets at all. -/
theorem export_empty_ready_rejected_witness :
    ([GeneratedScene.mk ("x") none none none] ≠ [] ∧
      readyScenes [GeneratedScene.mk ("x") none none none] = []) ∧
    ((handleExportFullMovie [GeneratedScene.mk ("x") none none none]).result =
        ExportResult.failed ("No completed scenes to export") ∧
      (handleExportFullMovie [GeneratedScene.mk ("x") none none none]).recorderCreated = false ∧
      (handleExportFullMovie [GeneratedScene.mk ("x") none none none]).audioGraphCreated = false ∧
      (handleExportFullMovie [GeneratedScene.mk ("x") none none none]).result ≠
        ExportResult.exported) :=
  ⟨⟨by decide, rfl⟩,
   export_empty_ready_rejected [GeneratedScene.mk ("x") none none none] (by decide) rfl⟩

/-! ## C1: per-scene visible duration (corrected) -/

/-- C1 as stated is false on the code: a scene with no audio buffer gets
visible duration `(undefined || 5) + 0.5 = 5.5` seconds, not exactly
5.0; consequently the three-scene scenario (3.0 s audio, no audio,
2.0 s audio) captures 3.5 + 5.5 + 2.5 = 11.5 s, which misses 11.0 s by
0.5 s — far beyond one 30 fps frame interval. -/
theorem visibleDuration_counterexample :
    sceneDuration noAudioScene = 11 / 2 ∧
    sceneDuration noAudioScene ≠ 5 ∧
    totalCaptureDuration demoScenes = 23 / 2 ∧
    ¬ totalCaptureDuration demoScenes - 11 ≤ 1 / 30 := by
  have h1 : sceneDuration noAudioScene = 11 / 2 := by
    norm_num [sceneDuration, jsOrFive, noAudioScene]
  have h2 : totalCaptureDuration demoScenes = 23 / 2 := by
    norm_num [totalCaptureDuration, exportTrace, exportTraceAux, sceneEvents, renderDurations,
      demoScenes, audio3Scene, noAudioScene, audio2Scene, sceneDuration, jsOrFive,
      ExpScene.hasVisual, List.filterMap_cons, List.filterMap_nil]
  refine ⟨h1, by rw [h1]; norm_num, h2, by rw [h2]; norm_num⟩

/-- C1 amended: with an audio buffer of nonzero duration `d` the visible
duration is `d + 0.5` s; with no audio buffer it is `5.5` s (the 5 s
nominal length plus the same 0.5 s padding); the scenario total is
therefore 11.5 s. -/
theorem visibleDuration_amended (s t : ExpScene) (d : ℚ)
    (hs : s.audioDuration = some d) (hd : d ≠ 0) (ht : t.audioDuration = none) :
    sceneDuration s = d + 1 / 2 ∧
    sceneDuration t = 11 / 2 ∧
    totalCaptureDuration demoScenes = 23 / 2 := by
  refine ⟨?_, ?_, ?_⟩
  · unfold sceneDuration
    rw [hs, jsOrFive_some, if_neg hd]
  · unfold sceneDuration
    rw [ht, jsOrFive_none]
    norm_num
  · norm_num [totalCaptureDuration, exportTrace, exportTraceAux, sceneEvents, renderDurations,
      demoScenes, audio3Scene, noAudioScene, audio2Scene, sceneDuration, jsOrFive,
      ExpScene.hasVisual, List.filterMap_cons, List.filterMap_nil]

/-- Witness for the amended C1 at the scenario's own scenes. -/
theorem visibleDuration_amended_witness :
    (audio3Scene.audioDuration = some 3 ∧ (3:ℚ) ≠ 0 ∧
      noAudioScene.audioDuration = none) ∧
    (sceneDuration audio3Scene = 3 + 1 / 2 ∧
      sceneDuration noAudioScene = 11 / 2 ∧
      totalCaptureDuration demoScenes = 23 / 2) :=
  ⟨⟨rfl, by decide, rfl⟩, visibleDuration_amended audio3Scene noAudioScene 3 rfl (by decide) rfl⟩

/-! ## C3: the pipeline's own skipping behaviour (corrected) -/

/-- C3 as stated is false on the code: a scene whose asset loads all
succeed but which lacks a visual handle IS silently dropped by
`generateVideo` itself (`if (!visual) continue`): it contributes no
events at all to the export trace. -/
theorem export_no_refilter_counterexample :
    audioOnlyScene.loadFails = false ∧
    audioOnlyScene.audioDuration.isSome = true ∧
    exportTrace [audioOnlyScene] = [] :=
  ⟨rfl, rfl, rfl⟩

/-- Helper for the amended C3: a loaded scene with a visual at position
`i` of the remaining list contributes its render event to the trace
numbered from `n`. -/
theorem exportTraceAux_render_mem (l : List ExpScene) :
    ∀ (n i : ℕ) (h : i < l.length),
      (l.get ⟨i, h⟩).loadFails = false →
      (l.get ⟨i, h⟩).hasVisual = true →
      ExportEv.renderScene (n + i) (sceneDuration (l.get ⟨i, h⟩)) ∈ exportTraceAux n l := by
  induction l with
  | nil =>
    intro n i h
    simp at h
  | cons s rest ih =>
    intro n i h hload hvis
    cases i with
    | zero =>
      have hget : (s :: rest).get ⟨0, h⟩ = s := rfl
      rw [hget] at hload hvis ⊢
      simp only [exportTraceAux]
      apply List.mem_append_left
      simp only [sceneEvents, hload, hvis, Nat.add_zero, Bool.false_eq_true, if_false, if_true]
      split
      · simp
      · simp
    | succ i2 =>
      have hlen : i2 < rest.length := by
        simp only [List.length_cons] at h
        omega
      have hget : (s :: rest).get ⟨i2 + 1, h⟩ = rest.get ⟨i2, hlen⟩ := rfl
      rw [hget] at hload hvis ⊢
      simp only [exportTraceAux]
      apply List.mem_append_right
      have harith : n + (i2 + 1) = (n + 1) + i2 := by omega
      rw [harith]
      exact ih (n + 1) i2 hlen hload hvis

/-- C3 amended: `generateVideo` does not re-filter by readiness in the
caller's sense — a supplied scene with a visual handle whose asset
loads succeed is rendered for its computed visible duration even when
it has no audio — but a scene lacking a visual handle (or whose asset
load throws) is skipped by the pipeline's own
`if (!visual) continue` guard. -/
theorem export_no_refilter_amended (scenes : List ExpScene) (i : ℕ) (h : i < scenes.length)
    (hload : (scenes.get ⟨i, h⟩).loadFails = false)
    (hvis : (scenes.get ⟨i, h⟩).hasVisual = true) :
    ExportEv.renderScene i (sceneDuration (scenes.get ⟨i, h⟩)) ∈ exportTrace scenes := by
  have hmem := exportTraceAux_render_mem scenes 0 i h hload hvis
  simpa [exportTrace] using hmem

/-- Witness for the amended C3: the audio-less middle scene of the
scenario is still rendered (no audio-readiness re-filtering). -/
theorem export_no_refilter_amended_witness :
    (1 < demoScenes.length ∧
      (demoScenes.get ⟨1, by decide⟩).loadFails = false ∧
      (demoScenes.get ⟨1, by decide⟩).hasVisual = true) ∧
    ExportEv.renderScene 1 (sceneDuration (demoScenes.get ⟨1, by decide⟩)) ∈
      exportTrace demoScenes :=
  ⟨⟨by decide, rfl, rfl⟩, export_no_refilter_amended demoScenes 1 (by decide) rfl rfl⟩

/-! ## C5: word-wrap line-width bound -/

theorem measureW_empty (cw : Char → ℚ) : measureW cw "" = 0 := rfl

theorem measureW_append (cw : Char → ℚ) (a b : String) :
    measureW cw (a ++ b) = measureW cw a + measureW cw b := by
  unfold measureW
  rw [String.data_append, List.map_append, List.sum_append]

theorem measureW_nonneg (cw : Char → ℚ) (hcw : ∀ c, 0 ≤ cw c) (s : String) :
    0 ≤ measureW cw s := by
  unfold measureW
  apply List.sum_nonneg
  intro x hx
  rcases List.mem_map.mp hx with ⟨c, _, rfl⟩
  exact hcw c

theorem renderLine_append (ws : List String) (w : String) :
    renderLine (ws ++ [w]) = renderLine ws ++ w ++ " " := by
  unfold renderLine
  rw [List.foldl_append]
  rfl

/-- Appending one more word to a line never shrinks its measured width. -/
theorem measureW_renderLine_le_append (cw : Char → ℚ) (hcw : ∀ c, 0 ≤ cw c)
    (line : List String) (w : String) :
    measureW cw (renderLine line) ≤ measureW cw (renderLine (line ++ [w])) := by
  rw [renderLine_append, measureW_append, measureW_append]
  have h1 := measureW_nonneg cw hcw w
  have h2 := measureW_nonneg cw hcw " "
  linarith

/-- A word's own rendered width is at most the width of any line it
ends. -/
theorem measureW_renderLine_word_le (cw : Char → ℚ) (hcw : ∀ c, 0 ≤ cw c)
    (line : List String) (w : String) :
    measureW cw (renderLine [w]) ≤ measureW cw (renderLine (line ++ [w])) := by
  rw [renderLine_append]
  have hsingle : renderLine [w] = "" ++ w ++ " " := rfl
  rw [hsingle]
  rw [measureW_append, measureW_append, measureW_append, measureW_append]
  have h1 := measureW_nonneg cw hcw (renderLine line)
  have h2 : measureW cw "" = 0 := rfl
  linarith

/-- Soundness invariant of the greedy wrap loop: provided the current
line respects the bound whenever it holds two or more words (and is
empty while `n = 0`), every produced line of two or more words has
measured width at most `maxW`. -/
theorem wrapAux_sound (cw : Char → ℚ) (maxW : ℚ) :
    ∀ (rest line : List String) (n : ℕ),
      (n = 0 → line = []) →
      (2 ≤ line.length → measureW cw (renderLine line) ≤ maxW) →
      ∀ ℓ ∈ wrapAux cw maxW line n rest,
        2 ≤ ℓ.length → measureW cw (renderLine ℓ) ≤ maxW := by
  intro rest
  induction rest with
  | nil =>
    intro line n _ hline ℓ hℓ
    simp only [wrapAux, List.mem_singleton] at hℓ
    subst hℓ
    exact hline
  | cons w rest ih =>
    intro line n h0 hline ℓ hℓ
    simp only [wrapAux] at hℓ
    by_cases hc : maxW < measureW cw (renderLine (line ++ [w])) ∧ 0 < n
    · rw [if_pos hc] at hℓ
      rcases List.mem_cons.mp hℓ with rfl | hmem
      · exact hline
      · refine ih [w] (n + 1) (fun hn => absurd hn (Nat.succ_ne_zero n)) ?_ ℓ hmem
        intro h2
        simp at h2
    · rw [if_neg hc] at hℓ
      refine ih (line ++ [w]) (n + 1) (fun hn => absurd hn (Nat.succ_ne_zero n)) ?_ ℓ hℓ
      intro h2
      rcases not_and_or.mp hc with hle | hn
      · exact le_of_not_lt hle
      · have h1 : line = [] := h0 (by omega)
        subst h1
        simp at h2

/-- A line holding exactly one over-wide word is flushed as-is: the
next word always overflows, so the singleton survives to the output. -/
theorem wrapAux_wide_stays (cw : Char → ℚ) (maxW : ℚ) (hcw : ∀ c, 0 ≤ cw c)
    (rest : List String) (n : ℕ) (w : String)
    (hn : 0 < n) (hw : maxW < measureW cw (renderLine [w])) :
    [w] ∈ wrapAux cw maxW [w] n rest := by
  cases rest with
  | nil => simp [wrapAux]
  | cons v rest =>
    simp only [wrapAux]
    have hcond : maxW < measureW cw (renderLine ([w] ++ [v])) ∧ 0 < n :=
      ⟨lt_of_lt_of_le hw (measureW_renderLine_le_append cw hcw [w] v), hn⟩
    rw [if_pos hcond]
    exact List.mem_cons_self _ _

/-- Any remaining word wider than the maximum width ends up alone on
its own line of the output. -/
theorem wrapAux_wide_alone (cw : Char → ℚ) (maxW : ℚ) (hcw : ∀ c, 0 ≤ cw c) :
    ∀ (rest line : List String) (n : ℕ),
      (n = 0 → line = []) →
      ∀ w ∈ rest, maxW < measureW cw (renderLine [w]) →
        [w] ∈ wrapAux cw maxW line n rest := by
  intro rest
  induction rest with
  | nil =>
    intro line n _ w hw
    simp at hw
  | cons u rest ih =>
    intro line n h0 w hw hwide
    rcases List.mem_cons.mp hw with rfl | hmem
    · simp only [wrapAux]
      by_cases hc : maxW < measureW cw (renderLine (line ++ [w])) ∧ 0 < n
      · rw [if_pos hc]
        exact List.mem_cons_of_mem _
          (wrapAux_wide_stays cw maxW hcw rest (n + 1) w (Nat.succ_pos n) hwide)
      · rw [if_neg hc]
        have hn : n = 0 := by
          by_contra hne
          exact hc ⟨lt_of_lt_of_le hwide (measureW_renderLine_word_le cw hcw line w),
            Nat.pos_of_ne_zero hne⟩
        have h1 : line = [] := h0 hn
        subst h1
        simp only [List.nil_append]
        exact wrapAux_wide_stays cw maxW hcw rest (n + 1) w (Nat.succ_pos n) hwide
    · simp only [wrapAux]
      by_cases hc : maxW < measureW cw (renderLine (line ++ [u])) ∧ 0 < n
      · rw [if_pos hc]
        exact List.mem_cons_of_mem _
          (ih [u] (n + 1) (fun hh => absurd hh (Nat.succ_ne_zero n)) w hmem hwide)
      · rw [if_neg hc]
        exact ih (line ++ [u]) (n + 1) (fun hh => absurd hh (Nat.succ_ne_zero n)) w hmem hwide

/-- C5: every line the greedy wrap of `drawSubtitles` produces measures
at most `0.9 × targetWidth`, except a line consisting of exactly one
word; and any single word wider than that maximum is placed alone on
its own line, untruncated. -/
theorem drawSubtitles_wrap_maxWidth (cw : Char → ℚ) (width : ℚ) (text : String)
    (hcw : ∀ c, 0 ≤ cw c) (htext : text ≠ "") :
    (∀ ℓ ∈ drawSubtitlesLines cw width text,
        2 ≤ ℓ.length → measureW cw (renderLine ℓ) ≤ width * (9 / 10)) ∧
    (∀ w ∈ splitWords text,
        width * (9 / 10) < measureW cw (renderLine [w]) →
          [w] ∈ drawSubtitlesLines cw width text) := by
  constructor
  · intro ℓ hℓ
    exact wrapAux_sound cw (width * (9 / 10)) (splitWords text) [] 0 (fun _ => rfl)
      (by intro h2; simp at h2) ℓ hℓ
  · intro w hw hwide
    exact wrapAux_wide_alone cw (width * (9 / 10)) hcw (splitWords text) [] 0 (fun _ => rfl)
      w hw hwide

/-- Witness for C5 with unit glyph widths on a 10-unit-wide target. -/
theorem drawSubtitles_wrap_maxWidth_witness :
    ((∀ c : Char, (0:ℚ) ≤ (fun _ => (1:ℚ)) c) ∧ "ab cd" ≠ "") ∧
    ((∀ ℓ ∈ drawSubtitlesLines (fun _ => (1:ℚ)) 10 ("ab cd"),
        2 ≤ ℓ.length → measureW (fun _ => (1:ℚ)) (renderLine ℓ) ≤ 10 * (9 / 10)) ∧
     (∀ w ∈ splitWords ("ab cd"),
        (10:ℚ) * (9 / 10) < measureW (fun _ => (1:ℚ)) (renderLine [w]) →
          [w] ∈ drawSubtitlesLines (fun _ => (1:ℚ)) 10 ("ab cd"))) :=
  ⟨⟨fun _ => zero_le_one, by decide⟩,
   drawSubtitles_wrap_maxWidth (fun _ => (1:ℚ)) 10 ("ab cd") (fun _ => zero_le_one) (by decide)⟩

/-! ## C6: strict serialization of narration audio in export -/

/-- One loop iteration emits one of exactly three event blocks. -/
theorem sceneEvents_shape (i : ℕ) (s : ExpScene) :
    sceneEvents i s = [] ∨
    sceneEvents i s = [ExportEv.renderScene i (sceneDuration s)] ∨
    sceneEvents i s =
      [ExportEv.startSource i, ExportEv.renderScene i (sceneDuration s),
        ExportEv.stopSource i] := by
  unfold sceneEvents
  split
  · exact Or.inl rfl
  · split
    · split
      · exact Or.inr (Or.inr rfl)
      · exact Or.inr (Or.inl rfl)
    · exact Or.inl rfl

/-- Events of scene `i`'s block carry index `i`. -/
theorem evIndex_mem_sceneEvents {i : ℕ} {s : ExpScene} {e : ExportEv}
    (h : e ∈ sceneEvents i s) : evIndex e = i := by
  rcases sceneEvents_shape i s with hs | hs | hs <;> rw [hs] at h
  · simp at h
  · simp only [List.mem_singleton] at h
    subst h
    rfl
  · simp only [List.mem_cons, List.not_mem_nil, or_false] at h
    rcases h with rfl | rfl | rfl <;> rfl

/-- Each scene block is internally ordered: start, then render, then
stop. -/
theorem pairwise_sceneEvents (i : ℕ) (s : ExpScene) :
    (sceneEvents i s).Pairwise evLt := by
  rcases sceneEvents_shape i s with hs | hs | hs <;> rw [hs]
  · exact List.Pairwise.nil
  · simp
  · simp only [List.pairwise_cons, List.mem_cons, List.mem_singleton, List.not_mem_nil,
      or_false, List.Pairwise.nil, and_true]
    refine ⟨?_, ?_⟩
    · intro e he
      rcases he with rfl | rfl <;> simp [evLt, evIndex, evPhase]
    · constructor
      · intro e he
        rcases he with rfl
        simp [evLt, evIndex, evPhase]
      · simp

/-- Every event of the tail trace has index at least the tail's first
scene number. -/
theorem le_evIndex_mem_exportTraceAux {e : ExportEv} :
    ∀ {n : ℕ} {l : List ExpScene}, e ∈ exportTraceAux n l → n ≤ evIndex e := by
  intro n l
  induction l generalizing n with
  | nil =>
    intro h
    simp [exportTraceAux] at h
  | cons s rest ih =>
    intro h
    simp only [exportTraceAux, List.mem_append] at h
    rcases h with h | h
    · have := evIndex_mem_sceneEvents h
      omega
    · have := ih h
      omega

/-- The export trace is strictly ordered by (scene index, phase):
within a scene start precedes render precedes stop, and every event of
scene `i` precedes every event of any later scene. -/
theorem pairwise_exportTraceAux (n : ℕ) (l : List ExpScene) :
    (exportTraceAux n l).Pairwise evLt := by
  induction l generalizing n with
  | nil => exact List.Pairwise.nil
  | cons s rest ih =>
    simp only [exportTraceAux]
    refine List.pairwise_append.mpr ⟨pairwise_sceneEvents n s, ih (n + 1), ?_⟩
    intro x hx y hy
    have hxi := evIndex_mem_sceneEvents hx
    have hyi := le_evIndex_mem_exportTraceAux hy
    exact Or.inl (by omega)

/-- Every narration source the export loop starts is explicitly
stopped later in the same trace. -/
theorem stopSource_mem_of_startSource_mem {i : ℕ} :
    ∀ {n : ℕ} {l : List ExpScene},
      ExportEv.startSource i ∈ exportTraceAux n l →
      ExportEv.stopSource i ∈ exportTraceAux n l := by
  intro n l
  induction l generalizing n with
  | nil =>
    intro h
    simp [exportTraceAux] at h
  | cons s rest ih =>
    intro h
    simp only [exportTraceAux, List.mem_append] at h ⊢
    rcases h with h | h
    · left
      rcases sceneEvents_shape n s with hs | hs | hs <;> rw [hs] at h ⊢
      · simp at h
      · simp at h
      · simp only [List.mem_cons, List.not_mem_nil, or_false] at h
        rcases h with h | h | h
        · have : i = n := by
            injection h
          subst this
          simp
        · exact absurd h (by simp)
        · exact absurd h (by simp)
    · right
      exact ih h

/-- If two distinct sources have both been started within the first `k`
events, the earlier one's stop also lies within those `k` events. -/
theorem stop_mem_take_of_two_starts (l : List ExpScene) :
    ∀ (n k i j : ℕ), i < j →
      ExportEv.startSource i ∈ (exportTraceAux n l).take k →
      ExportEv.startSource j ∈ (exportTraceAux n l).take k →
      ExportEv.stopSource i ∈ (exportTraceAux n l).take k := by
  induction l with
  | nil =>
    intro n k i j _ hi _
    simp [exportTraceAux] at hi
  | cons s rest ih =>
    intro n k i j hij hi hj
    simp only [exportTraceAux] at hi hj ⊢
    rw [List.take_append_eq_append_take] at hi hj ⊢
    have ei : evIndex (ExportEv.startSource i) = i := rfl
    have ej : evIndex (ExportEv.startSource j) = j := rfl
    rcases List.mem_append.mp hj with hjB | hjR
    · have hj2 := evIndex_mem_sceneEvents (List.take_subset _ _ hjB)
      rcases List.mem_append.mp hi with hiB | hiR
      · have hi2 := evIndex_mem_sceneEvents (List.take_subset _ _ hiB)
        omega
      · have hi3 := le_evIndex_mem_exportTraceAux (List.take_subset _ _ hiR)
        omega
    · rcases List.mem_append.mp hi with hiB | hiR
      · have hi2 := evIndex_mem_sceneEvents (List.take_subset _ _ hiB)
        have hk : (sceneEvents n s).length < k := by
          by_contra hle
          push_neg at hle
          have hz : k - (sceneEvents n s).length = 0 := by omega
          rw [hz] at hjR
          simp at hjR
        apply List.mem_append_left
        rw [List.take_of_length_le (le_of_lt hk)]
        have hiB2 := List.take_subset _ _ hiB
        rcases sceneEvents_shape n s with hs | hs | hs <;> rw [hs] at hiB2 ⊢
        · simp at hiB2
        · simp at hiB2
        · have : i = n := by omega
          subst this
          simp
      · exact List.mem_append_right _ (ih (n + 1) (k - (sceneEvents n s).length) i j hij hiR hjR)

/-- C6: narration audio is strictly serialized in `generateVideo`. At
every point of the export trace at most one narration source is active
(any two sources active after the same prefix coincide); the whole
trace is strictly ordered by scene then phase, so a later scene's
source starts only after the earlier scene's render loop has completed
its full visible duration and its source has been stopped; and every
started source is explicitly stopped. -/
theorem export_audio_serialized (scenes : List ExpScene) (k i j : ℕ)
    (h1 : activeSource scenes k i) (h2 : activeSource scenes k j) :
    i = j ∧
    (exportTrace scenes).Pairwise evLt ∧
    (∀ m, ExportEv.startSource m ∈ exportTrace scenes →
      ExportEv.stopSource m ∈ exportTrace scenes) := by
  refine ⟨?_, pairwise_exportTraceAux 0 scenes,
    fun m hm => stopSource_mem_of_startSource_mem hm⟩
  rcases Nat.lt_trichotomy i j with hlt | heq | hgt
  · exact absurd (stop_mem_take_of_two_starts scenes 0 k i j hlt h1.1 h2.1) h1.2
  · exact heq
  · exact absurd (stop_mem_take_of_two_starts scenes 0 k j i hgt h2.1 h1.1) h2.2

/-- Witness for C6 on a one-scene export, one event into the trace. -/
theorem export_audio_serialized_witness :
    (activeSource [audio3Scene] 1 0 ∧ activeSource [audio3Scene] 1 0) ∧
    (0 = 0 ∧
     (exportTrace [audio3Scene]).Pairwise evLt ∧
     (∀ m, ExportEv.startSource m ∈ exportTrace [audio3Scene] →
        ExportEv.stopSource m ∈ exportTrace [audio3Scene])) :=
  ⟨⟨by decide, by decide⟩,
   export_audio_serialized [audio3Scene] 1 0 0 (by decide) (by decide)⟩

end StoryReel
